import Mathlib

/-!
Shallow embedding of `Speech to text/ios.py`, a batch audio-transcription
script: it loads a Hinglish→Hindi lexicon, walks files or directories,
transcribes audio via an external recognizer, normalizes Hinglish tokens to
Hindi via `re.sub` word-boundary substitution, optionally translates the
result to English, and writes one `<basename>-transcript.txt` artifact per
input file.

External collaborators (Google speech recognition, googletrans, langdetect)
carry no internal logic; they are modelled as oracle functions in a `Collab`
structure, with `Option` results standing for raised exceptions. Filesystem
state is an association list from path to file content; the two external
call sites are counted in a state record so that theorems can speak about
which runs perform recognition or translation calls.
-/

namespace SpeechToText

/-- ASCII lower-casing of one character, as Python `str.lower` acts on the
Latin letters used by the Hinglish lexicon keys (codepoints 65–90 map to
97–122, everything else is unchanged). -/
def lowerChar (c : Char) : Char :=
  if 65 ≤ c.toNat ∧ c.toNat ≤ 90 then Char.ofNat (c.toNat + 32) else c

/-- Lower-casing of a string, character by character. -/
def lowerStr (s : String) : String := ⟨s.data.map lowerChar⟩

/-- Word-constituent characters for Python's regex `\b`: `\w` matches the
alphanumeric characters in the sense of `str.isalnum()` plus the
underscore.  Beyond ASCII this development classifies exactly the
Devanagari block U+0900–U+097F (the only non-ASCII script the program's
data uses): the word characters there are the letters — Lo at
U+0904–U+0939, the avagraha U+093D, om U+0950, U+0958–U+0961 and
U+0972–U+097F, plus the modifier letter U+0971 — and the decimal digits
U+0966–U+096F.  The combining vowel signs and marks (U+0900–U+0903,
U+093A–U+093C, U+093E–U+094F, U+0951–U+0957, U+0962–U+0963, e.g. the
vowel sign AA U+093E) and the punctuation (danda U+0964, double danda
U+0965, abbreviation sign U+0970) are not alphanumeric, hence not `\w`,
so `\b` sees a boundary between a consonant and a following vowel sign. -/
def isWordChar (c : Char) : Bool :=
  c.isAlphanum || c = '_' ||
    ((0x904 ≤ c.toNat && c.toNat ≤ 0x939) || c.toNat = 0x93D || c.toNat = 0x950 ||
      (0x958 ≤ c.toNat && c.toNat ≤ 0x961) || (0x966 ≤ c.toNat && c.toNat ≤ 0x96F) ||
      (0x971 ≤ c.toNat && c.toNat ≤ 0x97F))

/-- Characters that are metacharacters of Python's `re` syntax.  Line 60 of
the source interpolates each lexicon key into the pattern
`r'\b' + hinglish + r'\b'` without `re.escape`, so a key containing one of
these is not matched literally. -/
def isRegexMeta (c : Char) : Bool :=
  (['\\', '.', '^', '$', '*', '+', '?', '(', ')', '[', ']',
    '{', '}', '|'] : List Char).contains c

/-- Case-insensitive anchored match of `key` against the front of `text`:
returns the consumed text characters (in their original case) and the
remainder, or `none` when `key` is not a case-insensitive prefix. -/
def ciSplit : List Char → List Char → Option (List Char × List Char)
  | [], t => some ([], t)
  | _ :: _, [] => none
  | k :: ks, c :: cs =>
    if lowerChar c = lowerChar k then
      match ciSplit ks cs with
      | some (a, b) => some (c :: a, b)
      | none => none
    else none

/-- Word-character test lifted to `Option Char`; `none` (before the start or
after the end of the text) counts as a non-word position, as in `re`. -/
def isWO : Option Char → Bool
  | none => false
  | some c => isWordChar c

/-- Word-boundary test of `re`'s `\b` between two adjacent positions: it
matches exactly when one side is a word character and the other is not. -/
def wb (p n : Option Char) : Bool := isWO p != isWO n

/-- Scanning engine of `re.sub(r'\b'+key+r'\b', repl, text, flags=IGNORECASE)`
for a non-empty key: left-to-right, non-overlapping, case-insensitive
matching at word boundaries, with the scan resuming after the matched span
(boundaries keep being judged against the original text characters).  The
`fuel` argument only bounds the recursion; every step consumes at least one
text character, so the wrappers below pass `text.length + 1` and the
zero-fuel branch is never reached. -/
def subWWF (k0 : Char) (ks repl : List Char) : Nat → Option Char → List Char → List Char
  | 0, _, t => t
  | _ + 1, _, [] => []
  | fuel + 1, prev, c :: cs =>
    match ciSplit (k0 :: ks) (c :: cs) with
    | some (con, rest) =>
      if wb prev (some c) && wb con.getLast? rest.head? then
        repl ++ subWWF k0 ks repl fuel con.getLast? rest
      else c :: subWWF k0 ks repl fuel (some c) cs
    | none => c :: subWWF k0 ks repl fuel (some c) cs

/-- Embedding of the call `re.sub(r'\b' + key + r'\b', repl, text,
flags=re.IGNORECASE)` from line 60 of the source, where `key` is spliced in
unescaped.  A key free of `re` metacharacters together with a replacement
free of backslashes yields the literal case-insensitive whole-word
substitution: `re.sub` processes escapes in the replacement template, but a
backslash-free template is inserted verbatim.  The `.error` value marks the
calls that do not perform this literal whole-word replacement of the key:
a key containing a metacharacter (in particular `'('` makes `re.compile`
raise `re.error: missing ), unterminated subpattern`, and any other
metacharacter changes the meaning of the pattern); the empty key (whose
pattern `\b\b` pathologically inserts the replacement at every word
boundary instead of replacing occurrences of the key); and a replacement
containing a backslash, whose template is compiled eagerly — before and
independently of any match — so an invalid escape such as `\q` or a group
reference such as `\1` (the pattern has no groups) raises `re.error` even
when the key occurs nowhere in the text, while a valid escape such as `\n`
or `\\` inserts transformed text rather than the template verbatim. -/
def pyReSubWB (key repl text : List Char) : Except Unit (List Char) :=
  match key with
  | [] => Except.error ()
  | k0 :: ks =>
    if (k0 :: ks).any isRegexMeta then Except.error ()
    else if repl.contains '\\' then Except.error ()
    else Except.ok (subWWF k0 ks repl (text.length + 1) none text)

/-- String-level wrapper of `pyReSubWB`. -/
def reSubStr (key repl text : String) : Except Unit String :=
  (pyReSubWB key.data repl.data text.data).map String.mk

/-- In-memory lexicon `HINGLISH_TO_HINDI`: a Python dict modelled as an
insertion-ordered association list (iteration order of `.items()` is
insertion order; updating an existing key keeps its position). -/
abbrev Lexicon : Type := List (String × String)

/-- One line of the lexicon dataset after `json.loads`: either the parse
raised (`bad`), or it produced a record from which the source reads the
optional fields `translation.hi_ng` and `translation.en` (a missing
`translation` object behaves like a record with both fields missing,
via `data.get('translation', {})`). -/
inductive JsonLine where
  | bad : JsonLine
  | record (hi_ng : Option String) (en : Option String) : JsonLine

/-- Python dict assignment `d[k] = v`: update in place when the key exists,
otherwise append at the end (insertion order preserved). -/
def dictInsert (d : Lexicon) (k v : String) : Lexicon :=
  if (d : List (String × String)).any (fun p => p.1 = k) then
    (d : List (String × String)).map (fun p => if p.1 = k then (k, v) else p)
  else (d : List (String × String)) ++ [(k, v)]

/-- Embedding of `load_hinglish_mapping` (lines 18–26): for each dataset
line, `json.loads` it (a malformed line raises, uncaught), read
`translation.hi_ng` and `translation.en` defaulting to `''`, and store
`hinglish.lower() ↦ hindi` in the dict.  The missing-file case of `open`
is modelled at the call site in `main` by an `Except`-valued dataset.
This is the body of the per-line loop. -/
def loadStep (acc : Except Unit Lexicon) (line : JsonLine) : Except Unit Lexicon :=
  acc.bind (fun d =>
    match line with
    | JsonLine.bad => Except.error ()
    | JsonLine.record h e =>
      Except.ok (dictInsert d (lowerStr (h.getD "")) (e.getD "")))

def load_hinglish_mapping (ds : List JsonLine) : Except Unit Lexicon :=
  ds.foldl loadStep (Except.ok ([] : List (String × String)))

/-- Embedding of `preprocess_text` (lines 57–61): fold the lexicon in
iteration order, rewriting the text by one `re.sub` call per entry; an
`re.error` raised for some key propagates (modelled by the `Except`). -/
def preprocess_text (lex : Lexicon) (text : String) : Except Unit String :=
  (lex : List (String × String)).foldl
    (fun acc kv => acc.bind (fun t => reSubStr kv.1 kv.2 t)) (Except.ok text)

/-- Characters of a path after the last `'/'`, as `os.path.basename` on a
POSIX path. -/
def basenameChars (p : List Char) : List Char :=
  (p.reverse.takeWhile (fun c => c ≠ '/')).reverse

/-- Characters after the last `'.'` of a list (the whole list when it has
no dot). -/
def afterLastDot (b : List Char) : List Char :=
  (b.reverse.takeWhile (fun c => c ≠ '.')).reverse

/-- Extension part of `os.path.splitext`: the suffix from the last dot of
the basename, except that a basename whose characters before that dot are
all dots (for example `.bashrc` or `..mp3`) has no extension. -/
def splitext_ext (p : List Char) : List Char :=
  if (basenameChars p).contains '.' then
    if ((basenameChars p).take
        ((basenameChars p).length - (afterLastDot (basenameChars p)).length - 1)).all
        (fun c => c = '.') then []
    else '.' :: afterLastDot (basenameChars p)
  else []

/-- Tuple of supported audio extensions from line 13 of the source. -/
def SUPPORTED_FORMATS : List String :=
  [".m4a", ".mp3", ".webm", ".mp4", ".mpga", ".wav", ".mpeg"]

/-- Embedding of `is_supported_format` (lines 32–34):
`os.path.splitext(file_path)[1].lower() in SUPPORTED_FORMATS`. -/
def is_supported_format (p : String) : Bool :=
  SUPPORTED_FORMATS.contains ⟨(splitext_ext p.data).map lowerChar⟩

/-- The `base_filename` of line 38:
`os.path.splitext(os.path.basename(file_path))[0]`. -/
def transcript_base (fp : String) : String :=
  let b := basenameChars fp.data
  ⟨b.take (b.length - (splitext_ext fp.data).length)⟩

/-- The `output_file_path` of line 39: `f"{base_filename}-transcript.txt"`,
written into the current working directory. -/
def artifactName (fp : String) : String :=
  transcript_base fp ++ "-transcript.txt"

/-- Filesystem and effect state threaded through the pipeline: the regular
files of the working tree (path ↦ content) plus counters of the calls made
to the two external collaborators. -/
structure PState where
  fs : List (String × String)
  recogCalls : Nat
  translateCalls : Nat

/-- Embedding of `is_valid_file` (lines 28–30): `os.path.isfile`, true when
the path names a regular file of the modelled filesystem. -/
def is_valid_file (fs : List (String × String)) (p : String) : Bool :=
  (fs.lookup p).isSome

/-- Accumulating scanner behind `pySplit`: `acc` holds the characters of the
word in progress, in reverse. -/
def pySplitGo : List Char → List Char → List String
  | [], acc => if acc.isEmpty then [] else [⟨acc.reverse⟩]
  | c :: cs, acc =>
    if c.isWhitespace then
      if acc.isEmpty then pySplitGo cs [] else (⟨acc.reverse⟩ : String) :: pySplitGo cs []
    else pySplitGo cs (c :: acc)

/-- Python `str.split()` with no argument: split on runs of whitespace and
drop empty pieces. -/
def pySplit (s : String) : List String := pySplitGo s.data []

/-- Rendering of Python's `f"{confidence:.2f}"` on a rational confidence
score: round to hundredths and print with exactly two decimal digits. -/
def fmt2 (q : ℚ) : String :=
  let n : Int := Int.fdiv (200 * q.num + q.den) (2 * (q.den : Int))
  let m : Int := if n < 0 then -n else n
  (if n < 0 then "-" else "") ++ toString (m / 100) ++ "." ++
    (if m % 100 < 10 then "0" else "") ++ toString (m % 100)

/-- One confidence annotation line written by line 52 of the source:
`f"\n  - {word} ({confidence:.2f})"`. -/
def confLine (p : String × ℚ) : String :=
  "\n  - " ++ p.1 ++ " (" ++ fmt2 p.2 ++ ")"

/-- Content written by the body of `create_transcript_file` (lines 47–52):
the header `f"{base_filename}:\n"`, the transcript, and, when
`confidence_scores` is truthy (neither `None` nor empty), one annotation
line per `zip(transcript.split(), confidence_scores)` pair. -/
def transcript_content (base transcript : String) (scores : Option (List ℚ)) : String :=
  base ++ ":\n" ++ transcript ++
    match scores with
    | none => ""
    | some sc =>
      if sc.isEmpty then ""
      else String.join (((pySplit transcript).zip sc).map confLine)

/-- Embedding of `create_transcript_file` (lines 36–55): derive the output
path; when it already exists, log and return leaving the filesystem
untouched; otherwise write the transcript content to the new file. -/
def create_transcript_file (fp transcript : String) (scores : Option (List ℚ))
    (s : PState) : PState :=
  let out := artifactName fp
  if (s.fs.lookup out).isSome then s
  else { s with fs := (out, transcript_content (transcript_base fp) transcript scores) :: s.fs }

/-- External collaborators of the pipeline, as deterministic oracles.
`recognize` stands for decoding the audio file and calling
`recognizer.recognize_google(..., language="hi-IN")`; a `none` result
covers `UnknownValueError`, `RequestError` and any other exception of the
`try` block.  `detectLang` is `langdetect.detect`, `none` standing for a
raised `LangDetectException`.  `translate` is
`Translator().translate(text, src, dest='en').text`, `none` standing for
any raised exception. -/
structure Collab where
  recognize : String → Option String
  detectLang : String → Option String
  translate : String → String → Option String

/-- Embedding of `detect_and_transcribe` (lines 63–86): record the audio and
call the recognizer (counted as one external recognition call), normalize
the raw transcript with `preprocess_text`, then detect its language; any
exception of any step is caught by the `except` clauses and turns into a
`(None, None)` return.  The language and transcript are returned together
or not at all. -/
def detect_and_transcribe (C : Collab) (lex : Lexicon) (fp : String)
    (s : PState) : Option (String × String) × PState :=
  match C.recognize fp with
  | none => (none, { s with recogCalls := s.recogCalls + 1 })
  | some raw =>
    match preprocess_text lex raw with
    | Except.error _ => (none, { s with recogCalls := s.recogCalls + 1 })
    | Except.ok pre =>
      match C.detectLang pre with
      | none => (none, { s with recogCalls := s.recogCalls + 1 })
      | some lang => (some (lang, pre), { s with recogCalls := s.recogCalls + 1 })

/-- Embedding of `translate_text` (lines 88–96): one external translation
call; any exception is caught and `None` returned. -/
def translate_text (C : Collab) (text srcLang : String) (s : PState) :
    Option String × PState :=
  (C.translate text srcLang, { s with translateCalls := s.translateCalls + 1 })

/-- Embedding of `translate_audio_to_text` (lines 98–109): transcribe, then,
when the detected language differs from `'en'`, translate; the translation
replaces the transcript only when its result is truthy (not `None` and not
the empty string), otherwise the preprocessed transcript is returned. -/
def translate_audio_to_text (C : Collab) (lex : Lexicon) (fp : String)
    (s : PState) : Option String × PState :=
  match detect_and_transcribe C lex fp s with
  | (none, s1) => (none, s1)
  | (some (lang, tr), s1) =>
    if lang ≠ "en" then
      match translate_text C tr lang s1 with
      | (some t, s2) => if t ≠ "" then (some t, s2) else (some tr, s2)
      | (none, s2) => (some tr, s2)
    else (some tr, s1)

/-- Embedding of `process_file` (lines 111–121): validate path and format,
transcribe-and-translate, and hand the final text to
`create_transcript_file` with `confidence_scores=None`.  The
`translate_to_english` parameter is accepted and, as in the source, never
read. -/
def process_file (C : Collab) (lex : Lexicon) (fp : String)
    (translate_to_english : Bool) (s : PState) : PState :=
  if ¬(is_valid_file s.fs fp = true ∧ is_supported_format fp = true) then s
  else
    match translate_audio_to_text C lex fp s with
    | (none, s1) => s1
    | (some tr, s1) => create_transcript_file fp tr none s1

/-- Directory tree: the regular files of a directory and its named
subdirectories. -/
inductive DirTree where
  | node (files : List String) (subdirs : List (String × DirTree)) : DirTree

mutual
/-- Top-down traversal of `os.walk(top)` on a real directory path: the pairs
`(dirpath, filenames)` for the directory and, recursively, each
subdirectory (`dirnames` is discarded by the source's `for root, _, files`). -/
def os_walk (root : String) : DirTree → List (String × List String)
  | DirTree.node files subs => (root, files) :: os_walk_list root subs

/-- Traversal of a list of named subdirectories, joining each name onto the
parent path. -/
def os_walk_list (root : String) : List (String × DirTree) → List (String × List String)
  | [] => []
  | (name, t) :: rest => os_walk (root ++ "/" ++ name) t ++ os_walk_list root rest
end

/-- Argument actually passed to `os.walk` on line 129 of the source:
`directory_path if recursive else [directory_path]`.  A string walks the
tree; a `list` is not a path-like object, so `os.fspath` inside `os.walk`
raises `TypeError: expected str, bytes or os.PathLike object, not list`
as soon as the generator is iterated, which the `for` loop does at once. -/
def os_walk_arg : (String × DirTree) ⊕ List String →
    Except Unit (List (String × List String))
  | Sum.inl (p, t) => Except.ok (os_walk p t)
  | Sum.inr _ => Except.error ()

/-- Supported files enumerated by the loop body of `process_directory`:
`os.path.join(root, file)` for every walked file, filtered by
`is_supported_format`. -/
def walkedSupported (entries : List (String × List String)) : List String :=
  (entries.flatMap (fun e => e.2.map (fun f => e.1 ++ "/" ++ f))).filter
    is_supported_format

/-- Embedding of `process_directory` (lines 123–133): return unchanged when
the path is not a directory (`tree = none`); otherwise iterate `os.walk`
over `directory_path if recursive else [directory_path]` and feed every
supported file through `process_file`.  The `Except` carries the uncaught
`TypeError` of the non-recursive branch. -/
def process_directory (C : Collab) (lex : Lexicon) (tree : Option DirTree)
    (dirPath : String) (recursive translate_to_english : Bool) (s : PState) :
    Except Unit PState :=
  match tree with
  | none => Except.ok s
  | some t =>
    match os_walk_arg (if recursive then Sum.inl (dirPath, t) else Sum.inr [dirPath]) with
    | Except.error e => Except.error e
    | Except.ok entries =>
      Except.ok ((walkedSupported entries).foldl
        (fun st fp => process_file C lex fp translate_to_english st) s)

/-- Parsed command-line arguments of `parse_args` (lines 135–144); the
mutually exclusive required group guarantees exactly one of the two input
selectors, and `noise_reduction` is declared but never consulted. -/
structure Args where
  input_file_path : Option String
  input_directory_path : Option String
  recursive : Bool
  translate : Bool
  noise_reduction : Bool

/-- Embedding of `main` (lines 146–161): load the lexicon dataset (a missing
dataset file is the `Except.error` dataset, a malformed line errors inside
`load_hinglish_mapping`; both propagate and abort before any audio file is
touched), then dispatch on the input selector. -/
def main (C : Collab) (dataset : Except Unit (List JsonLine)) (args : Args)
    (tree : Option DirTree) (s : PState) : Except Unit PState :=
  dataset.bind (fun ds =>
    (load_hinglish_mapping ds).bind (fun lex =>
      match args.input_file_path with
      | some fp => Except.ok (process_file C lex fp args.translate s)
      | none =>
        match args.input_directory_path with
        | some dp => process_directory C lex tree dp args.recursive args.translate s
        | none => Except.ok s))

/-! Concrete fixtures used by counterexamples and witnesses: a single-entry
lexicon, oracle collaborators, small filesystem states and a two-level
directory tree. -/

/-- Lexicon holding the single pair `naam ↦ नाम`. -/
def exLex : Lexicon := [("naam", "नाम")]

/-- Collaborators that recognize `"naam"`, detect Hindi, and translate to
`"name"`. -/
def exCollab : Collab :=
  { recognize := fun _ => some "naam"
    detectLang := fun _ => some "hi"
    translate := fun _ _ => some "name" }

/-- Collaborators whose translator raises (returns `none`). -/
def exCollabFailT : Collab :=
  { recognize := fun _ => some "naam"
    detectLang := fun _ => some "hi"
    translate := fun _ _ => none }

/-- Collaborators whose translator succeeds with the empty string. -/
def exCollabEmptyT : Collab :=
  { recognize := fun _ => some "naam"
    detectLang := fun _ => some "hi"
    translate := fun _ _ => some "" }

/-- Working tree holding just the input audio file `a.wav`. -/
def exState : PState := { fs := [("a.wav", "")], recogCalls := 0, translateCalls := 0 }

/-- Working tree holding `a.wav` and its already-written transcript
artifact. -/
def exStateArt : PState :=
  { fs := [("a.wav", ""), ("a-transcript.txt", "old")], recogCalls := 0, translateCalls := 0 }

/-- Working tree holding just the input audio file `b.wav`. -/
def exStateB : PState := { fs := [("b.wav", "")], recogCalls := 0, translateCalls := 0 }

/-- Directory `A/` containing `A/x.wav` and `A/sub/y.wav`. -/
def exTree : DirTree := DirTree.node ["x.wav"] [("sub", DirTree.node ["y.wav"] [])]

/-- C9: `is_supported_format(path)` is true exactly when the lowercased
`os.path.splitext` extension of the path is one of the seven supported
audio extensions; `clip.MP3` is supported, `clip.ogg` is not. -/
theorem speech_C9_format_gating :
    (∀ p : String,
      is_supported_format p = true ↔
        (⟨(splitext_ext p.data).map lowerChar⟩ : String) ∈ SUPPORTED_FORMATS)
    ∧ is_supported_format "clip.MP3" = true
    ∧ is_supported_format "clip.ogg" = false := by
  refine ⟨fun p => ?_, rfl, rfl⟩
  simp [is_supported_format]

/-- C2: the claim that `process_directory` with `recursive=false` processes
the immediate directory's supported files without raising fails on the
code: line 129 passes the list `[directory_path]` to `os.walk`, which
raises `TypeError` as soon as the loop iterates it, so the non-recursive
branch crashes on every directory.  With `recursive=true` the walk does
feed every supported file of the full subtree (here `A/x.wav` and
`A/sub/y.wav`) through `process_file`. -/
theorem speech_C2_nonrecursive_walk_raises :
    process_directory exCollab exLex (some exTree) "A" false false exState =
      Except.error ()
    ∧ walkedSupported (os_walk "A" exTree) = ["A/x.wav", "A/sub/y.wav"]
    ∧ ∀ (C : Collab) (lex : Lexicon) (flag : Bool) (s : PState),
        process_directory C lex (some exTree) "A" true flag s =
          Except.ok (["A/x.wav", "A/sub/y.wav"].foldl
            (fun st fp => process_file C lex fp flag st) s) :=
  ⟨rfl, rfl, fun _ _ _ _ => rfl⟩

/-- C3: the claim that translation happens only under `--translate` fails on
the code: `process_file` accepts `translate_to_english` but never reads it,
so a file whose transcript is detected as non-English is translated even
with the flag off.  Concretely, processing `a.wav` with the flag `false`
performs one translation call and writes the translated text `name`
instead of the normalized transcript `नाम`. -/
theorem speech_C3_translate_flag_ignored :
    (process_file exCollab exLex "a.wav" false exState).translateCalls = 1
    ∧ (process_file exCollab exLex "a.wav" false exState).fs.lookup "a-transcript.txt" =
        some "a:\nname"
    ∧ preprocess_text exLex "naam" = Except.ok "नाम"
    ∧ ("a:\nname" : String) ≠ "a:\n" ++ "नाम" :=
  ⟨rfl, rfl, rfl, by decide⟩

/-- C1 counterexample: with the artifact `a-transcript.txt` already on disk,
processing `a.wav` still performs one speech-recognition call and one
translation call — the existence check of `create_transcript_file` only
guards the write, so "no speech-recognition call and no translation call
is made" is false. -/
theorem speech_C1_counterexample :
    (exStateArt.fs.lookup (artifactName "a.wav")).isSome = true
    ∧ (process_file exCollab exLex "a.wav" false exStateArt).recogCalls =
        exStateArt.recogCalls + 1
    ∧ (process_file exCollab exLex "a.wav" false exStateArt).translateCalls =
        exStateArt.translateCalls + 1 :=
  ⟨rfl, rfl, rfl⟩

/-- C5 counterexample: the translation collaborator succeeds with the empty
string, the detected language is `hi ≠ en`, yet the final transcript is
the normalized text `नाम`, not the translation output — line 107's
truthiness test `if translated_text:` discards an empty successful
translation, so "if translation succeeds, its output supersedes the
normalized text" is false. -/
theorem speech_C5_counterexample :
    exCollabEmptyT.translate "नाम" "hi" = some ""
    ∧ (translate_audio_to_text exCollabEmptyT exLex "a.wav" exState).1 = some "नाम"
    ∧ (translate_audio_to_text exCollabEmptyT exLex "a.wav" exState).1 ≠ some "" :=
  ⟨rfl, rfl, by decide⟩

/-- C7 counterexample: a dataset line whose record lacks the `hi_ng` field
loads into the lexicon as the empty-string key, so "every key in the built
lexicon is non-empty" is false. -/
theorem speech_C7_counterexample :
    load_hinglish_mapping [JsonLine.record none none] = Except.ok [("", "")]
    ∧ ¬(∀ p ∈ [(("" : String), ("" : String))], p.1 ≠ "") :=
  ⟨rfl, by simp⟩

/-! Helper lemmas about lower-casing, the lexicon dictionary and the loader. -/

theorem char_toNat_ofNat (n : Nat) (h : n < 55296) : (Char.ofNat n).toNat = n := by
  have hv : n.isValidChar := Or.inl h
  simp [Char.ofNat, hv, Char.ofNatAux, Char.toNat, UInt32.toNat, BitVec.toNat_ofNatLt]

theorem lowerChar_not_upper (c : Char) :
    ¬(65 ≤ (lowerChar c).toNat ∧ (lowerChar c).toNat ≤ 90) := by
  unfold lowerChar
  by_cases h : 65 ≤ c.toNat ∧ c.toNat ≤ 90
  · rw [if_pos h, char_toNat_ofNat _ (by omega)]
    omega
  · rw [if_neg h]; exact h

theorem lowerChar_idem (c : Char) : lowerChar (lowerChar c) = lowerChar c := by
  have h := lowerChar_not_upper c
  generalize hd : lowerChar c = d at h ⊢
  unfold lowerChar
  rw [if_neg h]

theorem lowerStr_idem (s : String) : lowerStr (lowerStr s) = lowerStr s := by
  unfold lowerStr
  apply congrArg String.mk
  simp only [List.map_map]
  exact List.map_congr_left (fun c _ => lowerChar_idem c)

theorem mem_dictInsert (d : Lexicon) (k v : String) (q : String × String)
    (hq : q ∈ dictInsert d k v) : q.1 = k ∨ q ∈ d := by
  unfold dictInsert at hq
  split at hq
  · obtain ⟨p, hp, he⟩ := List.mem_map.mp hq
    by_cases hk : p.1 = k
    · rw [if_pos hk] at he
      left; rw [← he]
    · rw [if_neg hk] at he
      right; rw [← he]; exact hp
  · rcases List.mem_append.mp hq with h | h
    · right; exact h
    · left; rw [List.mem_singleton.mp h]

theorem foldl_loadStep_error (ds : List JsonLine) :
    ds.foldl loadStep (Except.error ()) = Except.error () := by
  induction ds with
  | nil => rfl
  | cons l rest ih =>
    have : loadStep (Except.error ()) l = Except.error () := rfl
    simp [List.foldl, this, ih]

theorem load_keys_lower_aux (ds : List JsonLine) :
    ∀ acc : Lexicon, (∀ p ∈ acc, lowerStr p.1 = p.1) →
      ∀ lex, ds.foldl loadStep (Except.ok acc) = Except.ok lex →
        ∀ p ∈ lex, lowerStr p.1 = p.1 := by
  induction ds with
  | nil =>
    intro acc hacc lex h
    cases h
    exact hacc
  | cons l rest ih =>
    intro acc hacc lex h
    cases l with
    | bad =>
      rw [show List.foldl loadStep (Except.ok acc) (JsonLine.bad :: rest) =
        List.foldl loadStep (Except.error ()) rest from rfl,
        foldl_loadStep_error] at h
      cases h
    | record hi en =>
      refine ih (dictInsert acc (lowerStr (hi.getD "")) (en.getD "")) ?_ lex h
      intro p hp
      rcases mem_dictInsert _ _ _ _ hp with h1 | h1
      · rw [h1]; exact lowerStr_idem _
      · exact hacc p h1

/-- C7 amended: after loading any dataset, every key of the built lexicon is
stored lower-cased (it is a fixed point of lower-casing); non-emptiness
does not hold, since a record with a missing or empty `hi_ng` field
inserts the empty-string key (see the counterexample). -/
theorem speech_C7_keys_lowercased (ds : List JsonLine) (lex : Lexicon)
    (h : load_hinglish_mapping ds = Except.ok lex) :
    ∀ p ∈ lex, lowerStr p.1 = p.1 :=
  load_keys_lower_aux ds [] (by intro p hp; cases hp) lex h

/-- C7 amended, witness: the dataset line `{"translation": {"hi_ng": "NaAm",
"en": "नाम"}}` loads to the lexicon `[("naam", "नाम")]`, whose key is a
fixed point of lower-casing. -/
theorem speech_C7_keys_lowercased_witness : lowerStr "naam" = "naam" :=
  speech_C7_keys_lowercased [JsonLine.record (some "NaAm") (some "नाम")]
    [("naam", "नाम")] rfl ("naam", "नाम") (List.mem_singleton.mpr rfl)

theorem foldl_loadStep_bad (pre post : List JsonLine) :
    ∀ acc : Lexicon,
      (pre ++ JsonLine.bad :: post).foldl loadStep (Except.ok acc) = Except.error () := by
  induction pre with
  | nil =>
    intro acc
    rw [List.nil_append,
      show List.foldl loadStep (Except.ok acc) (JsonLine.bad :: post) =
        List.foldl loadStep (Except.error ()) post from rfl]
    exact foldl_loadStep_error post
  | cons l rest ih =>
    intro acc
    rw [List.cons_append]
    cases l with
    | bad =>
      rw [show List.foldl loadStep (Except.ok acc) (JsonLine.bad :: (rest ++ JsonLine.bad :: post)) =
        List.foldl loadStep (Except.error ()) (rest ++ JsonLine.bad :: post) from rfl]
      exact foldl_loadStep_error _
    | record hi en => exact ih _

/-- C8: lexicon loading is fatal: a dataset with any unparseable line makes
`load_hinglish_mapping` raise regardless of where the line sits (it never
skips it and continues), a missing dataset file aborts `main`, and a
dataset with a bad line aborts `main` before any file is processed — the
error propagates and no processing state is produced. -/
theorem speech_C8_fatal_load (pre post : List JsonLine) (C : Collab) (args : Args)
    (tree : Option DirTree) (s : PState) :
    load_hinglish_mapping (pre ++ JsonLine.bad :: post) = Except.error ()
    ∧ main C (Except.error ()) args tree s = Except.error ()
    ∧ main C (Except.ok (pre ++ JsonLine.bad :: post)) args tree s = Except.error () := by
  have h1 : load_hinglish_mapping (pre ++ JsonLine.bad :: post) = Except.error () :=
    foldl_loadStep_bad pre post []
  refine ⟨h1, rfl, ?_⟩
  show (load_hinglish_mapping (pre ++ JsonLine.bad :: post)).bind _ = Except.error ()
  rw [h1]
  rfl

theorem meta_not_wordChar (c : Char) (h : isRegexMeta c = true) : isWordChar c = false := by
  unfold isRegexMeta at h
  have hm := List.mem_of_elem_eq_true h
  fin_cases hm <;> decide

theorem wordChar_not_meta (c : Char) (h : isWordChar c = true) : isRegexMeta c = false := by
  cases hm : isRegexMeta c
  · rfl
  · rw [meta_not_wordChar c hm] at h
    cases h

theorem alnum_wordChar (c : Char) (h : c.isAlphanum = true) : isWordChar c = true := by
  unfold isWordChar
  rw [h]
  rfl

theorem contains_eq_false_of_not_mem {a : Char} {l : List Char} (h : a ∉ l) :
    l.contains a = false := by
  cases hc : l.contains a
  · rfl
  · exact absurd (List.mem_of_elem_eq_true hc) h

theorem reSubStr_wordkey_ok (k v t : String) (hk : k.data ≠ [])
    (h : ∀ c ∈ k.data, isWordChar c = true) (hv : '\\' ∉ v.data) :
    ∃ u, reSubStr k v t = Except.ok u := by
  unfold reSubStr pyReSubWB
  cases hd : k.data with
  | nil => exact absurd hd hk
  | cons k0 ks =>
    have hany : (k0 :: ks).any isRegexMeta = false := by
      rw [List.any_eq_false]
      intro c hc
      rw [wordChar_not_meta c (h c (hd ▸ hc))]
      exact Bool.false_ne_true
    refine ⟨String.mk (subWWF k0 ks v.data (t.data.length + 1) none t.data), ?_⟩
    simp only [hany, contains_eq_false_of_not_mem hv, Bool.false_eq_true, if_false]
    rfl

theorem preprocess_wordkeys_ok (lex : Lexicon)
    (h : ∀ p ∈ lex, p.1.data ≠ [] ∧ (∀ c ∈ p.1.data, isWordChar c = true) ∧
      '\\' ∉ p.2.data) :
    ∀ t : String, ∃ u, preprocess_text lex t = Except.ok u := by
  induction lex with
  | nil => exact fun t => ⟨t, rfl⟩
  | cons kv rest ih =>
    intro t
    obtain ⟨hk, hc, hv⟩ := h kv (List.mem_cons_self kv rest)
    obtain ⟨u, hu⟩ := reSubStr_wordkey_ok kv.1 kv.2 t hk hc hv
    have hrest : ∀ p ∈ rest, p.1.data ≠ [] ∧ (∀ c ∈ p.1.data, isWordChar c = true) ∧
        '\\' ∉ p.2.data :=
      fun p hp => h p (List.mem_cons_of_mem kv hp)
    obtain ⟨w, hw⟩ := ih hrest u
    refine ⟨w, ?_⟩
    show List.foldl _ ((Except.ok t).bind (fun x => reSubStr kv.1 kv.2 x)) rest = _
    rw [show (Except.ok t).bind (fun x => reSubStr kv.1 kv.2 x) = reSubStr kv.1 kv.2 t from rfl,
      hu]
    exact hw

/-- C10 counterexample: the claim promises a literal whole-word replacement
for every lexicon whose keys are purely alphanumeric, but the lexicon
`[("a", "\q")]` — key alphanumeric, replacement carrying the invalid
escape `\q` — makes normalization raise (`re.error: bad escape \q`) even
on a text in which the key never occurs: `re.sub` compiles the replacement
template eagerly, independently of any match. -/
theorem speech_C10_counterexample :
    (∀ c ∈ ("a" : String).data, c.isAlphanum = true)
    ∧ preprocess_text [("a", "\\q")] "z" = Except.error () :=
  ⟨by decide, rfl⟩

/-- C10 amended: lexicon keys are spliced into the `re.sub` pattern without
escaping and replacements into its template without escaping: every
lexicon whose keys are non-empty and purely alphanumeric and whose
replacement strings contain no backslash normalizes any text without
raising (the pattern is the literal whole-word key and the template is
inserted verbatim); a replacement containing a backslash is subject to
template-escape processing and can raise even when the key matches
nothing (see the counterexample); and the lexicon containing the key
`"("` makes normalization raise — `re.compile` fails on the unbalanced
parenthesis — instead of treating the key as plain text. -/
theorem speech_C10_unescaped_keys :
    (∀ (lex : Lexicon) (text : String),
        (∀ p ∈ lex, p.1.data ≠ [] ∧ (∀ c ∈ p.1.data, c.isAlphanum = true) ∧
          '\\' ∉ p.2.data) →
        ∃ out, preprocess_text lex text = Except.ok out)
    ∧ preprocess_text [("(", "x")] "(a)" = Except.error () := by
  refine ⟨fun lex text h => ?_, rfl⟩
  refine preprocess_wordkeys_ok lex ?_ text
  intro p hp
  exact ⟨(h p hp).1, fun c hc => alnum_wordChar c ((h p hp).2.1 c hc), (h p hp).2.2⟩

/-- C10 witness: the all-alphanumeric, backslash-free singleton lexicon
`naam ↦ नाम` normalizes `"naam"` without raising. -/
theorem speech_C10_unescaped_keys_witness :
    ∃ out, preprocess_text exLex "naam" = Except.ok out :=
  speech_C10_unescaped_keys.1 exLex "naam" (by decide)

/-! Helper lemmas about the word-boundary substitution engine. -/

theorem ciSplit_eq (key : List Char) :
    ∀ (t con rest : List Char), ciSplit key t = some (con, rest) →
      con.length = key.length ∧ con ++ rest = t ∧
        con.map lowerChar = key.map lowerChar := by
  induction key with
  | nil =>
    intro t con rest h
    rw [show ciSplit [] t = some ([], t) from rfl] at h
    injection h with h1
    injection h1 with h2 h3
    subst h2; subst h3
    exact ⟨rfl, rfl, rfl⟩
  | cons k ks ih =>
    intro t con rest h
    cases t with
    | nil => exact absurd h (by rw [show ciSplit (k :: ks) [] = none from rfl]; simp)
    | cons c cs =>
      rw [show ciSplit (k :: ks) (c :: cs) =
        (if lowerChar c = lowerChar k then
          match ciSplit ks cs with
          | some (a, b) => some (c :: a, b)
          | none => none
        else none) from rfl] at h
      by_cases hc : lowerChar c = lowerChar k
      · rw [if_pos hc] at h
        cases hs : ciSplit ks cs with
        | none => rw [hs] at h; cases h
        | some ab =>
          obtain ⟨a, b⟩ := ab
          rw [hs] at h
          injection h with h1
          injection h1 with h2 h3
          subst h2; subst h3
          obtain ⟨l1, l2, l3⟩ := ih cs a b hs
          refine ⟨by simp [l1], by simp [l2], ?_⟩
          simp [l3, hc]
      · rw [if_neg hc] at h; cases h

theorem subWWF_allword (k0 : Char) (ks repl : List Char) :
    ∀ (fuel : Nat) (p : Char) (t : List Char), isWordChar p = true →
      (∀ c ∈ t, isWordChar c = true) →
      subWWF k0 ks repl fuel (some p) t = t := by
  intro fuel
  induction fuel with
  | zero => intro p t _ _; rfl
  | succ fuel ih =>
    intro p t hp ht
    cases t with
    | nil => rfl
    | cons c cs =>
      have hc : isWordChar c = true := ht c (List.mem_cons_self c cs)
      have hcs : ∀ x ∈ cs, isWordChar x = true :=
        fun x hx => ht x (List.mem_cons_of_mem c hx)
      have hwb : wb (some p) (some c) = false := by
        simp [wb, isWO, hp, hc]
      cases hs : ciSplit (k0 :: ks) (c :: cs) with
      | none =>
        simp only [subWWF, hs]
        rw [ih c cs hc hcs]
      | some pr =>
        obtain ⟨con, rest⟩ := pr
        simp only [subWWF, hs, hwb, Bool.false_and, Bool.false_eq_true, if_false]
        rw [ih c cs hc hcs]

theorem subWWF_start (k0 : Char) (ks repl : List Char) (fuel : Nat)
    (t : List Char) (ht : ∀ c ∈ t, isWordChar c = true)
    (hne : t.map lowerChar ≠ (k0 :: ks).map lowerChar) :
    subWWF k0 ks repl fuel none t = t := by
  cases fuel with
  | zero => rfl
  | succ fuel =>
    cases t with
    | nil => rfl
    | cons c cs =>
      have hc : isWordChar c = true := ht c (List.mem_cons_self c cs)
      have hcs : ∀ x ∈ cs, isWordChar x = true :=
        fun x hx => ht x (List.mem_cons_of_mem c hx)
      cases hs : ciSplit (k0 :: ks) (c :: cs) with
      | none =>
        simp only [subWWF, hs]
        rw [subWWF_allword k0 ks repl fuel c cs hc hcs]
      | some pr =>
        obtain ⟨con, rest⟩ := pr
        obtain ⟨hlen, happ, hlow⟩ := ciSplit_eq (k0 :: ks) (c :: cs) con rest hs
        cases rest with
        | nil =>
          exfalso
          apply hne
          rw [List.append_nil] at happ
          rw [happ] at hlow
          exact hlow
        | cons r rs =>
          have hcon_ne : con ≠ [] := by
            intro h0
            rw [h0] at hlen
            exact absurd hlen.symm (by simp)
          have hlast := List.getLast?_eq_getLast con hcon_ne
          have hlc_mem : con.getLast hcon_ne ∈ c :: cs := by
            rw [← happ]
            exact List.mem_append_left _ (List.getLast_mem hcon_ne)
          have hr_mem : r ∈ c :: cs := by
            rw [← happ]
            exact List.mem_append_right _ (List.mem_cons_self r rs)
          have hwb2 : wb con.getLast? (r :: rs).head? = false := by
            rw [hlast]
            simp [wb, isWO, ht _ hlc_mem, ht r hr_mem]
          simp only [subWWF, hs, hwb2, Bool.and_false, Bool.false_eq_true, if_false]
          rw [subWWF_allword k0 ks repl fuel c cs hc hcs]

/-- C4: normalization substitutes lexicon keys only as case-insensitive
whole words.  Generally, a text that is one larger word in the sense of
`\w` (all of its characters are word constituents) and is not
case-insensitively equal to the key is left unchanged — no substring
inside a larger word is ever replaced — for any backslash-free
replacement; on the lexicon `naam ↦ नाम`, `"mera naam hai"` becomes
`"mera नाम hai"`, `"naamkaran"` is unchanged, and `"NAAM"` becomes
`"नाम"`.  The word-boundary class matters: the vowel sign U+093E is not
a word character, so `"ना"` (consonant + vowel sign) is not one word and
the key `"न"` is replaced in it, as `re.sub` does. -/
theorem speech_C4_whole_word_substitution :
    (∀ key v text : String, key.data ≠ [] →
        (∀ c ∈ key.data, isWordChar c = true) →
        '\\' ∉ v.data →
        (∀ c ∈ text.data, isWordChar c = true) →
        text.data.map lowerChar ≠ key.data.map lowerChar →
        preprocess_text [(key, v)] text = Except.ok text)
    ∧ preprocess_text [("naam", "नाम")] "mera naam hai" = Except.ok "mera नाम hai"
    ∧ preprocess_text [("naam", "नाम")] "naamkaran" = Except.ok "naamkaran"
    ∧ preprocess_text [("naam", "नाम")] "NAAM" = Except.ok "नाम"
    ∧ preprocess_text [("न", "X")] "ना" = Except.ok "Xा" := by
  refine ⟨fun key v text hk hkw hv htw hne => ?_, rfl, rfl, rfl, rfl⟩
  show reSubStr key v text = Except.ok text
  unfold reSubStr pyReSubWB
  cases hd : key.data with
  | nil => exact absurd hd hk
  | cons k0 ks =>
    have hany : (k0 :: ks).any isRegexMeta = false := by
      rw [List.any_eq_false]
      intro c hc
      rw [wordChar_not_meta c (hkw c (hd ▸ hc))]
      exact Bool.false_ne_true
    simp only [hany, contains_eq_false_of_not_mem hv, Bool.false_eq_true, if_false]
    rw [subWWF_start k0 ks v.data (text.data.length + 1) text.data htw (hd ▸ hne)]
    rfl

/-- C4 witness: instantiating the general part at key `naam` and the larger
word `naamkaran` (no substring replacement), together with the concrete
substitution facts. -/
theorem speech_C4_whole_word_substitution_witness :
    preprocess_text [("naam", "x")] "naamkaran" = Except.ok "naamkaran" :=
  speech_C4_whole_word_substitution.1 "naam" "x" "naamkaran" (by decide)
    (by decide) (by decide) (by decide) (by decide)

/-- C6: transcript file format.  The content written for a transcript with
no confidence scores is exactly the header line `<basename>:` followed by
the transcript text; when a non-empty score list is supplied, it is
followed by one annotation line per positional pair of
`zip(transcript.split(), scores)`, so the number of annotation lines is
the minimum of the token count and the score count (the longer sequence is
silently truncated, no error is raised); and writing to a fresh output
path stores exactly this content under `<basename>-transcript.txt`. -/
theorem speech_C6_transcript_format (base t fp : String) (scores : List ℚ)
    (s : PState) (hfresh : (s.fs.lookup (artifactName fp)).isSome = false) :
    transcript_content base t none = base ++ ":
" ++ t
    ∧ (scores ≠ [] → transcript_content base t (some scores) =
        base ++ ":
" ++ t ++ String.join (((pySplit t).zip scores).map confLine))
    ∧ ((pySplit t).zip scores).length = min (pySplit t).length scores.length
    ∧ (create_transcript_file fp t (some scores) s).fs.lookup (artifactName fp) =
        some (transcript_content (transcript_base fp) t (some scores)) := by
  refine ⟨?_, ?_, by simp, ?_⟩
  · show base ++ ":\n" ++ t ++ "" = base ++ ":\n" ++ t
    rw [String.append_empty]
  · intro hs
    cases scores with
    | nil => exact absurd rfl hs
    | cons a l => rfl
  · unfold create_transcript_file
    rw [if_neg (by simp [hfresh])]
    show List.lookup _ ((artifactName fp, _) :: _) = _
    rw [List.lookup_cons_self]

/-- C6 witness: writing `hello world` for input `b.wav` with the single
score `1` produces the header, the transcript, and one annotation line
(`min 2 1 = 1`: the pairing stops at the shorter sequence). -/
theorem speech_C6_transcript_format_witness :
    transcript_content "a" "hello world" none = "a" ++ ":
" ++ "hello world"
    ∧ transcript_content "a" "hello world" (some [1]) =
        "a" ++ ":
" ++ "hello world" ++
          String.join (((pySplit "hello world").zip [1]).map confLine)
    ∧ ((pySplit "hello world").zip [(1 : ℚ)]).length =
        min (pySplit "hello world").length [(1 : ℚ)].length
    ∧ (create_transcript_file "b.wav" "hello world" (some [1]) exStateB).fs.lookup
        (artifactName "b.wav") =
        some (transcript_content (transcript_base "b.wav") "hello world" (some [1])) := by
  obtain ⟨h1, h2, h3, h4⟩ :=
    speech_C6_transcript_format "a" "hello world" "b.wav" [1] exStateB (by decide)
  exact ⟨h1, h2 (by decide), h3, h4⟩

/-- C5 amended: when the detected language is not `en`, a raised translation
exception falls back to the normalized pre-translation text (the batch is
not aborted — `translate_text` catches every exception), and a successful
translation supersedes the normalized text provided its output is
non-empty; a successful but empty translation also falls back to the
normalized text (see the counterexample), because line 107 tests
truthiness rather than `is not None`. -/
theorem speech_C5_translation_fallback (C : Collab) (lex : Lexicon) (fp : String)
    (s s2 : PState) (lang pre : String)
    (h : detect_and_transcribe C lex fp s = (some (lang, pre), s2))
    (hl : lang ≠ "en") :
    (C.translate pre lang = none → (translate_audio_to_text C lex fp s).1 = some pre)
    ∧ (∀ t, C.translate pre lang = some t → t ≠ "" →
        (translate_audio_to_text C lex fp s).1 = some t)
    ∧ (C.translate pre lang = some "" → (translate_audio_to_text C lex fp s).1 = some pre) := by
  refine ⟨?_, ?_, ?_⟩
  · intro ht
    simp [translate_audio_to_text, translate_text, h, hl, ht]
  · intro t ht hne
    simp [translate_audio_to_text, translate_text, h, hl, ht, hne]
  · intro ht
    simp [translate_audio_to_text, translate_text, h, hl, ht]

/-- C5 witness: with a translator that raises, the final transcript for
`a.wav` (recognized `naam`, normalized `नाम`, detected `hi`) is the
normalized text `नाम`. -/
theorem speech_C5_translation_fallback_witness :
    (translate_audio_to_text exCollabFailT exLex "a.wav" exState).1 = some "नाम" :=
  (speech_C5_translation_fallback exCollabFailT exLex "a.wav" exState
    ⟨[("a.wav", "")], 1, 0⟩ "hi" "नाम" rfl (by decide)).1 rfl

/-! Helper lemmas about paths, the artifact name, and state threading. -/

theorem takeWhile_all {p : Char → Bool} (l : List Char) (h : ∀ c ∈ l, p c = true) :
    l.takeWhile p = l := by
  induction l with
  | nil => rfl
  | cons a t ih =>
    rw [List.takeWhile_cons, h a (List.mem_cons_self a t)]
    simp [ih (fun c hc => h c (List.mem_cons_of_mem a hc))]

theorem basenameChars_no_slash (l : List Char) : '/' ∉ basenameChars l := by
  intro h
  unfold basenameChars at h
  rw [List.mem_reverse] at h
  have h2 := List.mem_takeWhile_imp h
  simp at h2

theorem basenameChars_of_no_slash (l : List Char) (h : '/' ∉ l) :
    basenameChars l = l := by
  have hp : ∀ c ∈ l.reverse, (fun c => decide (c ≠ '/')) c = true := by
    intro c hc
    rw [List.mem_reverse] at hc
    simp
    exact fun e => h (e ▸ hc)
  unfold basenameChars
  rw [takeWhile_all l.reverse hp, List.reverse_reverse]

theorem transcript_base_no_slash (fp : String) : '/' ∉ (transcript_base fp).data := by
  intro h
  exact basenameChars_no_slash fp.data (List.take_subset _ _ h)

theorem artifact_ext (fp : String) :
    splitext_ext (artifactName fp).data = ['.', 't', 'x', 't'] := by
  have hdata : (artifactName fp).data =
      (transcript_base fp).data ++ "-transcript.txt".data := String.data_append _ _
  have hnos : '/' ∉ (transcript_base fp).data ++ "-transcript.txt".data := by
    intro h
    rcases List.mem_append.mp h with h1 | h1
    · exact transcript_base_no_slash fp h1
    · exact absurd h1 (by decide)
  have hbn : basenameChars ((transcript_base fp).data ++ "-transcript.txt".data) =
      (transcript_base fp).data ++ "-transcript.txt".data :=
    basenameChars_of_no_slash _ hnos
  have hcont : ((transcript_base fp).data ++ "-transcript.txt".data).contains '.' = true :=
    List.elem_eq_true_of_mem (List.mem_append_right _ (by decide))
  have hald : afterLastDot ((transcript_base fp).data ++ "-transcript.txt".data) =
      ['t', 'x', 't'] := by
    unfold afterLastDot
    rw [List.reverse_append]
    rw [show ("-transcript.txt".data).reverse =
      't' :: 'x' :: 't' :: '.' :: "tpircsnart-".data from by decide]
    simp [List.takeWhile_cons]
  have hlen : ((transcript_base fp).data ++ "-transcript.txt".data).length =
      (transcript_base fp).data.length + 15 := by
    rw [List.length_append]
    rfl
  have hpre : ((transcript_base fp).data ++ "-transcript.txt".data).take
      (((transcript_base fp).data ++ "-transcript.txt".data).length - 3 - 1) =
      (transcript_base fp).data ++ "-transcript".data := by
    rw [hlen, show (transcript_base fp).data.length + 15 - 3 - 1 =
      (transcript_base fp).data.length + 11 from by omega, List.take_append 11]
    rw [show ("-transcript.txt".data).take 11 = "-transcript".data from by decide]
  have hall : (((transcript_base fp).data ++ "-transcript".data).all
      (fun c => c = '.')) = false := by
    cases hcase : ((transcript_base fp).data ++ "-transcript".data).all (fun c => c = '.')
    · rfl
    · exfalso
      have hm := List.all_eq_true.mp hcase '-' (List.mem_append_right _ (by decide))
      simp at hm
  unfold splitext_ext
  rw [hdata, hbn, hcont, hald]
  rw [show (['t', 'x', 't'] : List Char).length = 3 from rfl]
  rw [hpre, hall]
  simp

theorem artifact_not_supported (fp : String) :
    is_supported_format (artifactName fp) = false := by
  unfold is_supported_format
  rw [artifact_ext]
  decide

theorem detect_and_transcribe_eq (C : Collab) (lex : Lexicon) (fp : String) (s : PState) :
    detect_and_transcribe C lex fp s =
      ((detect_and_transcribe C lex fp s).1, { s with recogCalls := s.recogCalls + 1 }) := by
  unfold detect_and_transcribe
  cases C.recognize fp with
  | none => rfl
  | some raw =>
    dsimp only
    cases preprocess_text lex raw with
    | error e => rfl
    | ok pre =>
      dsimp only
      cases C.detectLang pre with
      | none => rfl
      | some lang => rfl

theorem detect_and_transcribe_fst_irrel (C : Collab) (lex : Lexicon) (fp : String)
    (s s' : PState) :
    (detect_and_transcribe C lex fp s).1 = (detect_and_transcribe C lex fp s').1 := by
  unfold detect_and_transcribe
  cases C.recognize fp with
  | none => rfl
  | some raw =>
    dsimp only
    cases preprocess_text lex raw with
    | error e => rfl
    | ok pre =>
      dsimp only
      cases C.detectLang pre with
      | none => rfl
      | some lang => rfl

theorem translate_audio_to_text_fs (C : Collab) (lex : Lexicon) (fp : String) (s : PState) :
    (translate_audio_to_text C lex fp s).2.fs = s.fs := by
  unfold translate_audio_to_text
  rw [detect_and_transcribe_eq C lex fp s]
  cases hv : (detect_and_transcribe C lex fp s).1 with
  | none => rfl
  | some pr =>
    obtain ⟨lang, tr⟩ := pr
    dsimp only
    by_cases hl : lang = "en"
    · simp [hl]
    · cases ht : C.translate tr lang with
      | none => simp [hl, translate_text, ht]
      | some t => by_cases ht2 : t = "" <;> simp [hl, translate_text, ht, ht2]

theorem translate_audio_to_text_fst_irrel (C : Collab) (lex : Lexicon) (fp : String)
    (s s' : PState) :
    (translate_audio_to_text C lex fp s).1 = (translate_audio_to_text C lex fp s').1 := by
  unfold translate_audio_to_text
  rw [detect_and_transcribe_eq C lex fp s, detect_and_transcribe_eq C lex fp s',
    detect_and_transcribe_fst_irrel C lex fp s s']
  cases hv : (detect_and_transcribe C lex fp s').1 with
  | none => rfl
  | some pr =>
    obtain ⟨lang, tr⟩ := pr
    dsimp only
    by_cases hl : lang = "en"
    · simp [hl]
    · cases ht : C.translate tr lang with
      | none => simp [hl, translate_text, ht]
      | some t => by_cases ht2 : t = "" <;> simp [hl, translate_text, ht, ht2]

theorem lookup_cons_of_ne (a k v : String) (l : List (String × String)) (h : a ≠ k) :
    List.lookup a ((k, v) :: l) = List.lookup a l := by
  simp [List.lookup, beq_eq_false_iff_ne.mpr h]

theorem process_file_fs (C : Collab) (lex : Lexicon) (fp : String) (flag : Bool)
    (s : PState) :
    (process_file C lex fp flag s).fs =
      if is_valid_file s.fs fp = true ∧ is_supported_format fp = true then
        match (translate_audio_to_text C lex fp s).1 with
        | none => s.fs
        | some tr =>
          if (s.fs.lookup (artifactName fp)).isSome = true then s.fs
          else (artifactName fp, transcript_content (transcript_base fp) tr none) :: s.fs
      else s.fs := by
  by_cases hvs : is_valid_file s.fs fp = true ∧ is_supported_format fp = true
  · rw [if_pos hvs]
    unfold process_file
    rw [if_neg (not_not_intro hvs)]
    rcases hE : translate_audio_to_text C lex fp s with ⟨v, s1⟩
    have hs1 : s1.fs = s.fs := by
      have h := translate_audio_to_text_fs C lex fp s
      rw [hE] at h
      exact h
    cases v with
    | none => simp [hs1]
    | some tr =>
      unfold create_transcript_file
      by_cases hex : (s.fs.lookup (artifactName fp)).isSome = true
      · simp [hs1, hex]
      · simp [hs1, hex]
  · rw [if_neg hvs]
    unfold process_file
    rw [if_pos hvs]

/-- C1 amended: the existence check is a file-write guard, not a full
short-circuit.  When the output artifact already exists, processing leaves
the filesystem exactly unchanged (the artifact is not overwritten and no
new file appears); running the pipeline twice on the same input changes
the filesystem no further than running it once (so exactly one output file
is ever produced); and a single run either leaves the filesystem unchanged
or adds exactly the one artifact for this input.  However, recognition and
translation are still re-invoked on the second run (see the
counterexample): the check sits inside `create_transcript_file`, after the
external calls. -/
theorem speech_C1_write_guard_idempotency (C : Collab) (lex : Lexicon) (fp : String)
    (flag : Bool) (s : PState) :
    ((s.fs.lookup (artifactName fp)).isSome = true →
      (process_file C lex fp flag s).fs = s.fs)
    ∧ (process_file C lex fp flag (process_file C lex fp flag s)).fs =
        (process_file C lex fp flag s).fs
    ∧ ((process_file C lex fp flag s).fs = s.fs ∨
        ∃ ct, (process_file C lex fp flag s).fs = (artifactName fp, ct) :: s.fs) := by
  refine ⟨?_, ?_, ?_⟩
  · intro hex
    rw [process_file_fs]
    split
    · cases hv : (translate_audio_to_text C lex fp s).1 with
      | none => rfl
      | some tr => simp [hex]
    · rfl
  · have hfs1 := process_file_fs C lex fp flag s
    rw [process_file_fs C lex fp flag (process_file C lex fp flag s),
      translate_audio_to_text_fst_irrel C lex fp (process_file C lex fp flag s) s]
    by_cases hvs : is_valid_file s.fs fp = true ∧ is_supported_format fp = true
    · obtain ⟨hval, hsup⟩ := hvs
      have hfp_ne : fp ≠ artifactName fp := by
        intro he
        have h2 := artifact_not_supported fp
        rw [← he, hsup] at h2
        cases h2
      rw [if_pos ⟨hval, hsup⟩] at hfs1
      cases hv : (translate_audio_to_text C lex fp s).1 with
      | none =>
        rw [hv] at hfs1
        dsimp only at hfs1
        rw [hfs1]
        split <;> rfl
      | some tr =>
        rw [hv] at hfs1
        dsimp only at hfs1
        by_cases hex : (s.fs.lookup (artifactName fp)).isSome = true
        · rw [if_pos hex] at hfs1
          rw [hfs1]
          split
          · simp [hex]
          · rfl
        · rw [if_neg hex] at hfs1
          rw [hfs1]
          have hval2 : is_valid_file
              ((artifactName fp, transcript_content (transcript_base fp) tr none) :: s.fs)
              fp = true := by
            unfold is_valid_file at hval ⊢
            rw [lookup_cons_of_ne fp (artifactName fp) _ s.fs hfp_ne]
            exact hval
          rw [if_pos ⟨hval2, hsup⟩]
          simp [List.lookup_cons_self]
    · rw [if_neg hvs] at hfs1
      rw [hfs1, if_neg hvs]
  · rw [process_file_fs]
    split
    · cases hv : (translate_audio_to_text C lex fp s).1 with
      | none => exact Or.inl rfl
      | some tr =>
        by_cases hex : (s.fs.lookup (artifactName fp)).isSome = true
        · exact Or.inl (by simp [hex])
        · exact Or.inr ⟨transcript_content (transcript_base fp) tr none, by simp [hex]⟩
    · exact Or.inl rfl

/-- C1 amended, witness: with the artifact for `a.wav` already present, a
run leaves the filesystem unchanged, and a second run after a first one
changes nothing further. -/
theorem speech_C1_write_guard_idempotency_witness :
    (process_file exCollab exLex "a.wav" false exStateArt).fs = exStateArt.fs
    ∧ (process_file exCollab exLex "a.wav" false
        (process_file exCollab exLex "a.wav" false exStateArt)).fs =
        (process_file exCollab exLex "a.wav" false exStateArt).fs :=
  ⟨(speech_C1_write_guard_idempotency exCollab exLex "a.wav" false exStateArt).1 rfl,
   (speech_C1_write_guard_idempotency exCollab exLex "a.wav" false exStateArt).2.1⟩

end SpeechToText
